import Mathlib

/-!
Verification of the go-natty demo proxy's signaling layer against its
specification.  The framing primitives (`setSessionID`, `getSessionID`,
`getData`, `idToBytes`), the address conversion (`udpAddresses`), the relay
bootstrap (`connectToWaddell`) and the mode dispatch of `main` are embedded
from `src/demo/proxy.go`.  Bytes are modelled as natural numbers below 256
and Go byte slices as lists of their visible bytes (capacity equal to
length); a Go runtime panic is modelled by the `crash` constructor of
`GoResult`, distinct from an ordinary returned error value.
-/

namespace GoNatty

/-- Result of running a piece of Go code that can panic at runtime:
`ok` is a normal return, `crash` is a runtime panic (not an error value). -/
inductive GoResult (α : Type) where
  | ok : α → GoResult α
  | crash : String → GoResult α
  deriving DecidableEq, Repr

/-- `binary.LittleEndian.PutUint32`: the four bytes of `id` (a uint32,
taken mod 2^32 by the byte extractions), least-significant first. -/
def putUint32LE (id : Nat) : List Nat :=
  [id % 256, (id / 256) % 256, (id / 65536) % 256, (id / 16777216) % 256]

/-- `binary.LittleEndian.Uint32`: reassemble a uint32 from four bytes,
least-significant first. -/
def uint32LE (b0 b1 b2 b3 : Nat) : Nat :=
  b0 + 256 * b1 + 65536 * b2 + 16777216 * b3

/-- `func (msg message) setSessionID(id uint32)`: writes `id` into
`msg[:4]` in place.  Slicing `msg[:4]` panics when the slice holds fewer
than 4 bytes. -/
def setSessionID (msg : List Nat) (id : Nat) : GoResult (List Nat) :=
  if 4 ≤ msg.length then .ok (putUint32LE id ++ msg.drop 4)
  else .crash "runtime error: slice bounds out of range"

/-- `func (msg message) getSessionID() uint32`: reads `msg[:4]` as a
little-endian uint32.  Panics when the slice holds fewer than 4 bytes. -/
def getSessionID (msg : List Nat) : GoResult Nat :=
  match msg with
  | b0 :: b1 :: b2 :: b3 :: _ => .ok (uint32LE b0 b1 b2 b3)
  | _ => .crash "runtime error: slice bounds out of range"

/-- `func (msg message) getData() []byte`: returns `msg[4:]`.  Panics when
the slice holds fewer than 4 bytes. -/
def getData (msg : List Nat) : GoResult (List Nat) :=
  if 4 ≤ msg.length then .ok (msg.drop 4)
  else .crash "runtime error: slice bounds out of range"

/-- `func idToBytes(id uint32) []byte`: a fresh 4-byte slice holding the
little-endian encoding of `id`. -/
def idToBytes (id : Nat) : List Nat :=
  putUint32LE id

/-- The wire framing of one relayed message: the 4-byte session-id header
produced by `idToBytes` followed by the payload, unmodified.  Equivalently
`setSessionID` applied to a buffer of length `4 + payload.length` whose
tail is the payload. -/
def encode (id : Nat) (payload : List Nat) : List Nat :=
  idToBytes id ++ payload

/-- The frame decode of a received message, as the demo performs it:
`getSessionID` for the header and `getData` for the payload. -/
def decode (msg : List Nat) : GoResult (Nat × List Nat) :=
  match getSessionID msg with
  | .crash e => .crash e
  | .ok id =>
    match getData msg with
    | .crash e => .crash e
    | .ok d => .ok (id, d)

/-- The framer decode as the specification words it (§4.2, §7): an input
shorter than 4 bytes yields a `MalformedMessage` error value instead of a
crash.  Stated only to be compared with `decode`, which is what the code
does. -/
def decodeSpec (msg : List Nat) : Except String (Nat × List Nat) :=
  if h : 4 ≤ msg.length then
    match msg, h with
    | b0 :: b1 :: b2 :: b3 :: rest, _ => .ok (uint32LE b0 b1 b2 b3, rest)
  else .error "MalformedMessage"

/-- `natty.FiveTuple`: the resolved address pair and transport protocol,
all in textual form, as consumed by `udpAddresses`. -/
structure FiveTuple where
  Local : String
  Remote : String
  Proto : String
  deriving DecidableEq, Repr

/-- `natty.UDP`, the only protocol value the demo accepts. -/
def UDP : String := "udp"

/-- A resolved UDP address, abstract: `net.ResolveUDPAddr` is external to
the repository, so resolution is passed into `udpAddresses` as a function
whose `none` result models a resolution error. -/
structure UDPAddr where
  addr : String
  deriving DecidableEq, Repr

/-- `func udpAddresses(ft *natty.FiveTuple)`: rejects a non-UDP protocol
with a non-nil error and nil addresses, otherwise resolves the local and
remote textual addresses in that order; the result triple is
(local, remote, error) with `some` standing for a non-nil pointer or
non-nil error. -/
def udpAddresses (resolve : String → Option UDPAddr) (ft : FiveTuple) :
    Option UDPAddr × Option UDPAddr × Option String :=
  if ft.Proto ≠ UDP then
    (none, none, some ("FiveTuple.Proto was not UDP!: " ++ ft.Proto))
  else
    match resolve ft.Local with
    | none => (none, none, some ("Unable to resolve local UDP address " ++ ft.Local))
    | some localAddr =>
      match resolve ft.Remote with
      | none => (none, none, some ("Unable to resolve remote UDP address " ++ ft.Remote))
      | some remoteAddr => (some localAddr, some remoteAddr, none)

/-- A dialed TCP connection, abstract. -/
structure Conn where
  fd : Nat
  deriving DecidableEq, Repr

/-- A connected waddell relay client, abstract. -/
structure WaddellClient where
  clientId : Nat
  deriving DecidableEq, Repr

/-- `func connectToWaddell()`: dials the relay address, then performs the
waddell protocol handshake; either failure calls `log.Fatalf`, modelled as
`Except.error` (fatal process termination).  Dialing and the handshake are
external effects, passed in as functions whose `none` result is the
failure case. -/
def connectToWaddell (dial : Option Conn)
    (connect : Conn → Option WaddellClient) : Except String WaddellClient :=
  match dial with
  | none => .error "Unable to dial waddell"
  | some conn =>
    match connect conn with
    | none => .error "Unable to connect to waddell"
    | some c => .ok c

/-- The two demo roles. -/
inductive Role where
  | server
  | client
  deriving DecidableEq, Repr

/-- The default value of the `-mode` flag. -/
def modeFlagDefault : String := "client"

/-- The mode dispatch in `main`: the server role runs iff the `-mode` flag
equals the exact string "server"; every other value runs the client. -/
def selectRole (mode : String) : Role :=
  if "server" = mode then .server else .client

/-- `main` after flag parsing: connects to waddell and only then
dispatches to the server or client role; a fatal exit inside
`connectToWaddell` aborts the process before any role runs. -/
def mainFlow (dial : Option Conn) (connect : Conn → Option WaddellClient)
    (mode : String) : Except String (Role × WaddellClient) :=
  match connectToWaddell dial connect with
  | .error e => .error e
  | .ok c => .ok (selectRole mode, c)

/-- Modelled from the spec: the natty `Traversal` (Session) state.  The
natty library itself is not under `src/`; only its tests and demo callers
are.  Spec §3: `resolved` is an optional five-tuple, set at most once,
monotonically (never cleared or overwritten); `outboundExhausted` records
that the engine reported no further outbound messages. -/
structure Session where
  resolved : Option FiveTuple
  outboundExhausted : Bool
  deriving DecidableEq, Repr

/-- Modelled from the spec: the observable events that mutate a Session
(§3 Lifecycle): message production and consumption, engine exhaustion, and
the background resolution signal from the engine. -/
inductive SessionEvent where
  | msgIn : String → SessionEvent
  | nextMsgOut : SessionEvent
  | outboundDone : SessionEvent
  | engineResolved : FiveTuple → SessionEvent
  deriving DecidableEq, Repr

/-- Modelled from the spec: one Session state transition.  The resolution
signal writes the single-assignment result cell only when it is still
empty (§9: the cell is written at most once). -/
def Session.step (s : Session) : SessionEvent → Session
  | .msgIn _ => s
  | .nextMsgOut => s
  | .outboundDone => { s with outboundExhausted := true }
  | .engineResolved ft =>
    match s.resolved with
    | some _ => s
    | none => { s with resolved := some ft }

/-- A Session after a sequence of events. -/
def Session.run (s : Session) (es : List SessionEvent) : Session :=
  es.foldl Session.step s

/-- Modelled from the spec: `FiveTuple()` (resolve): blocks until the
engine resolves an address pair and returns the memoized value; in the
model, the value of the result cell when present (§4.1). -/
def Session.fiveTuple (s : Session) : Option FiveTuple :=
  s.resolved

/-- Modelled from the spec: `FiveTupleTimeout(d)` (resolveWithTimeout):
like resolve but bounded.  `es` are the events that occur before the
deadline elapses; if they leave the Session unresolved the call returns a
TimeoutError and only the calling operation is affected — the Session
keeps its progress (§4.1). -/
def Session.fiveTupleTimeout (s : Session) (es : List SessionEvent) :
    Except String FiveTuple × Session :=
  let s2 := s.run es
  match s2.resolved with
  | some ft => (.ok ft, s2)
  | none => (.error "TimeoutError", s2)

/-- Concrete resolver used to instantiate theorems about `udpAddresses`. -/
def resolveW : String → Option UDPAddr :=
  fun s => if s = "10.0.0.1:4000" then some ⟨"10.0.0.1:4000"⟩
    else if s = "10.0.0.2:4000" then some ⟨"10.0.0.2:4000"⟩
    else none

/-- A concrete five-tuple with a non-UDP protocol. -/
def ftTCP : FiveTuple := ⟨"10.0.0.1:4000", "10.0.0.2:4000", "tcp"⟩

/-- A concrete five-tuple with the UDP protocol and resolvable
addresses. -/
def ftUDP : FiveTuple := ⟨"10.0.0.1:4000", "10.0.0.2:4000", "udp"⟩

/-- A concrete resolved five-tuple used to instantiate Session theorems. -/
def ftW : FiveTuple := ⟨"1.1.1.1:1", "2.2.2.2:2", "udp"⟩

/-- A second concrete five-tuple, different from `ftW`. -/
def ftW2 : FiveTuple := ⟨"3.3.3.3:3", "4.4.4.4:4", "udp"⟩

/-- A concrete Session that has already resolved `ftW`. -/
def sessW : Session := ⟨some ftW, false⟩

/-- A concrete Session that has not resolved yet. -/
def sessNoneW : Session := ⟨none, false⟩

/-- A concrete dialed connection. -/
def connW : Conn := ⟨1⟩

/-- A concrete connected waddell client. -/
def clientW : WaddellClient := ⟨42⟩

/-- A handshake that succeeds. -/
def connectOkW : Conn → Option WaddellClient := fun _ => some clientW

/-- A handshake that fails. -/
def connectFailW : Conn → Option WaddellClient := fun _ => none

theorem uint32LE_putUint32LE (id : Nat) :
    uint32LE (id % 256) ((id / 256) % 256) ((id / 65536) % 256)
      ((id / 16777216) % 256) = id % 4294967296 := by
  unfold uint32LE
  omega

theorem Session.resolved_step (s : Session) (ft : FiveTuple)
    (e : SessionEvent) (h : s.resolved = some ft) :
    (s.step e).resolved = some ft := by
  cases e <;> simp [Session.step, h]

theorem Session.resolved_run (s : Session) (ft : FiveTuple)
    (es : List SessionEvent) (h : s.resolved = some ft) :
    (s.run es).resolved = some ft := by
  induction es generalizing s with
  | nil => simpa [Session.run] using h
  | cons e es ih =>
    have : s.run (e :: es) = (s.step e).run es := rfl
    rw [this]
    exact ih _ (Session.resolved_step s ft e h)

/-- C1: for every uint32 sessionID and every payload, decoding the frame
produced by encoding (the 4-byte little-endian header followed by the
payload) returns exactly the original sessionID and the original payload:
`getSessionID` after the header write yields the same id and `getData`
yields the payload bytes. -/
theorem decode_encode_roundtrip (id : Nat) (payload : List Nat)
    (h : id < 4294967296) :
    decode (encode id payload) = .ok (id, payload) := by
  have h2 : uint32LE (id % 256) ((id / 256) % 256) ((id / 65536) % 256)
      ((id / 16777216) % 256) = id := by
    rw [uint32LE_putUint32LE]
    exact Nat.mod_eq_of_lt h
  simp [encode, idToBytes, putUint32LE, decode, getSessionID, getData, h2]

theorem decode_encode_roundtrip_witness :
    305419896 < 4294967296 ∧
    decode (encode 305419896 [10, 20, 30]) = .ok (305419896, [10, 20, 30]) :=
  ⟨by norm_num, decode_encode_roundtrip 305419896 [10, 20, 30] (by norm_num)⟩

/-- C2 counterexample: on the empty input the frame decode crashes with a
Go slice-bounds panic; it does not fail with a MalformedMessage error
value, as the specified decode (`decodeSpec`) would. -/
theorem decode_empty_crashes_counterexample :
    decode [] = .crash "runtime error: slice bounds out of range" ∧
    decodeSpec [] = .error "MalformedMessage" :=
  ⟨rfl, rfl⟩

/-- C2 (amended): for every input shorter than 4 bytes, the frame decode
does not return a sessionID, but it fails by crashing — a runtime
slice-bounds panic in `msg[:4]` — rather than with a MalformedMessage
error value, which the code never produces. -/
theorem decode_short_input_crashes :
    ∀ (msg : List Nat), msg.length < 4 →
      decode msg = .crash "runtime error: slice bounds out of range"
  | [], _ => rfl
  | [_], _ => rfl
  | [_, _], _ => rfl
  | [_, _, _], _ => rfl
  | _ :: _ :: _ :: _ :: _, h => by simp only [List.length_cons] at h; omega

theorem decode_short_input_crashes_witness :
    [7, 7].length < 4 ∧
    decode [7, 7] = .crash "runtime error: slice bounds out of range" :=
  ⟨by decide, decode_short_input_crashes [7, 7] (by decide)⟩

/-- C3: every emitted framed message has a header of exactly 4 bytes:
`idToBytes` always returns a slice of length exactly 4, and a frame always
carries the 4-byte header — its length is 4 plus the payload length, so an
empty payload still yields a 4-byte message. -/
theorem idToBytes_header_length (id : Nat) (payload : List Nat) :
    (idToBytes id).length = 4 ∧
    (encode id payload).length = 4 + payload.length ∧
    (encode id []).length = 4 := by
  refine ⟨rfl, ?_, rfl⟩
  simp [encode, idToBytes, putUint32LE]
  omega

/-- C4: `udpAddresses` rejects every five-tuple whose protocol is not UDP
with nil local and remote addresses and a non-nil error; when the protocol
is UDP and both textual addresses resolve, it returns both resolved
addresses and no error. -/
theorem udpAddresses_proto_check (resolve : String → Option UDPAddr)
    (ft : FiveTuple) :
    (ft.Proto ≠ UDP →
      (udpAddresses resolve ft).1 = none ∧
      (udpAddresses resolve ft).2.1 = none ∧
      (udpAddresses resolve ft).2.2 ≠ none) ∧
    (∀ localAddr remoteAddr, ft.Proto = UDP →
      resolve ft.Local = some localAddr →
      resolve ft.Remote = some remoteAddr →
      udpAddresses resolve ft = (some localAddr, some remoteAddr, none)) := by
  constructor
  · intro h
    simp [udpAddresses, h]
  · intro localAddr remoteAddr hp hl hr
    simp [udpAddresses, hp, hl, hr]

theorem udpAddresses_proto_check_witness :
    ftTCP.Proto ≠ UDP ∧
    (udpAddresses resolveW ftTCP).1 = none ∧
    (udpAddresses resolveW ftTCP).2.1 = none ∧
    (udpAddresses resolveW ftTCP).2.2 ≠ none ∧
    udpAddresses resolveW ftUDP =
      (some ⟨"10.0.0.1:4000"⟩, some ⟨"10.0.0.2:4000"⟩, none) := by
  have h1 := (udpAddresses_proto_check resolveW ftTCP).1 (by decide)
  have h2 := (udpAddresses_proto_check resolveW ftUDP).2
    ⟨"10.0.0.1:4000"⟩ ⟨"10.0.0.2:4000"⟩ rfl (by decide) (by decide)
  exact ⟨by decide, h1.1, h1.2.1, h1.2.2, h2⟩

/-- C5: once a Session has resolved a five-tuple, every later resolve call
returns the identical value, whatever events occur in between — the
resolved value is set at most once and never overwritten, so two
subsequent reads agree with the first in all three fields. -/
theorem fiveTuple_idempotent (s : Session) (ft : FiveTuple)
    (es es2 : List SessionEvent) (h : s.fiveTuple = some ft) :
    (s.run es).fiveTuple = some ft ∧
    ((s.run es).run es2).fiveTuple = some ft := by
  have h1 := Session.resolved_run s ft es h
  exact ⟨h1, Session.resolved_run _ ft es2 h1⟩

theorem fiveTuple_idempotent_witness :
    sessW.fiveTuple = some ftW ∧
    (sessW.run [SessionEvent.engineResolved ftW2]).fiveTuple = some ftW ∧
    ((sessW.run [SessionEvent.engineResolved ftW2]).run
      [SessionEvent.outboundDone]).fiveTuple = some ftW := by
  have h := fiveTuple_idempotent sessW ftW [SessionEvent.engineResolved ftW2]
    [SessionEvent.outboundDone] rfl
  exact ⟨rfl, h.1, h.2⟩

/-- C6: a bounded resolve whose deadline elapses before any event has
resolved the Session returns a TimeoutError and leaves the Session
unchanged; a later unbounded resolve on the same Session still succeeds
once the engine resolves — the timeout affects only the one calling
operation. -/
theorem fiveTupleTimeout_timeout_recoverable (s : Session) (ft : FiveTuple)
    (es : List SessionEvent) (h : s.resolved = none) :
    (s.fiveTupleTimeout []).1 = .error "TimeoutError" ∧
    (s.fiveTupleTimeout []).2 = s ∧
    (((s.fiveTupleTimeout []).2).run
      (SessionEvent.engineResolved ft :: es)).fiveTuple = some ft := by
  have h1 : s.fiveTupleTimeout [] = (.error "TimeoutError", s) := by
    simp [Session.fiveTupleTimeout, Session.run, h]
  refine ⟨by rw [h1], by rw [h1], ?_⟩
  rw [h1]
  have hstep : (s.step (SessionEvent.engineResolved ft)).resolved = some ft := by
    simp [Session.step, h]
  exact Session.resolved_run _ ft es hstep

theorem fiveTupleTimeout_timeout_recoverable_witness :
    sessNoneW.resolved = none ∧
    (sessNoneW.fiveTupleTimeout []).1 = .error "TimeoutError" ∧
    (sessNoneW.fiveTupleTimeout []).2 = sessNoneW ∧
    (((sessNoneW.fiveTupleTimeout []).2).run
      [SessionEvent.engineResolved ftW]).fiveTuple = some ftW := by
  have h := fiveTupleTimeout_timeout_recoverable sessNoneW ftW [] rfl
  exact ⟨rfl, h.1, h.2.1, h.2.2⟩

/-- C7: if dialing the relay fails, or the waddell handshake fails, the
demo terminates fatally; it reaches a role (server or client) only with a
connected relay client obtained from a successful dial and handshake. -/
theorem connectToWaddell_failure_fatal (dial : Option Conn)
    (connect : Conn → Option WaddellClient) (mode : String) :
    (dial = none →
      mainFlow dial connect mode = .error "Unable to dial waddell") ∧
    (∀ conn, dial = some conn → connect conn = none →
      mainFlow dial connect mode = .error "Unable to connect to waddell") ∧
    (∀ r c, mainFlow dial connect mode = .ok (r, c) →
      ∃ conn, dial = some conn ∧ connect conn = some c) := by
  refine ⟨?_, ?_, ?_⟩
  · intro h
    simp [mainFlow, connectToWaddell, h]
  · intro conn h1 h2
    simp [mainFlow, connectToWaddell, h1, h2]
  · intro r c h
    cases hd : dial with
    | none => simp [mainFlow, connectToWaddell, hd] at h
    | some conn =>
      cases hc : connect conn with
      | none => simp [mainFlow, connectToWaddell, hd, hc] at h
      | some c2 =>
        simp [mainFlow, connectToWaddell, hd, hc] at h
        exact ⟨conn, rfl, by rw [hc, h.2]⟩

theorem connectToWaddell_failure_fatal_witness :
    mainFlow none connectOkW "client" = .error "Unable to dial waddell" ∧
    mainFlow (some connW) connectFailW "client" =
      .error "Unable to connect to waddell" ∧
    ∃ conn, (some connW : Option Conn) = some conn ∧
      connectOkW conn = some clientW :=
  ⟨(connectToWaddell_failure_fatal none connectOkW "client").1 rfl,
    (connectToWaddell_failure_fatal (some connW) connectFailW "client").2.1
      connW rfl rfl,
    (connectToWaddell_failure_fatal (some connW) connectOkW "client").2.2
      (selectRole "client") clientW rfl⟩

/-- C8: the `-mode` flag selects the role by exact string comparison: the
server role runs iff the flag equals the exact string "server"; the
default value "client" (and hence any other string) runs the client. -/
theorem selectRole_server_iff (mode : String) :
    (selectRole mode = .server ↔ mode = "server") ∧
    selectRole modeFlagDefault = .client := by
  constructor
  · by_cases h : "server" = mode
    · subst h
      simp [selectRole]
    · simp [selectRole, h]
      exact fun hm => h hm.symm
  · rfl

theorem selectRole_server_iff_witness :
    selectRole "server" = .server ∧ selectRole "client" = .client ∧
    selectRole "bogus" = .client :=
  ⟨(selectRole_server_iff "server").1.mpr rfl,
    (selectRole_server_iff "client").2, rfl⟩

/-- C9: writing a sessionID into an existing buffer of length at least 4
modifies only the first 4 bytes: the result has the same length, the same
drop-4 suffix, and every byte at index 4 or greater unchanged, so the
payload survives header stamping intact. -/
theorem setSessionID_only_header (msg : List Nat) (id : Nat)
    (h : 4 ≤ msg.length) :
    ∃ msg2, setSessionID msg id = .ok msg2 ∧
      msg2.length = msg.length ∧
      msg2.drop 4 = msg.drop 4 ∧
      ∀ k, msg2[4 + k]? = msg[4 + k]? := by
  refine ⟨putUint32LE id ++ msg.drop 4, ?_, ?_, ?_, ?_⟩
  · simp [setSessionID, h]
  · simp [putUint32LE]
    omega
  · simp [putUint32LE]
  · intro k
    match msg, h with
    | a :: b :: c :: d :: rest, _ =>
      show (putUint32LE id ++ rest)[4 + k]? = (a :: b :: c :: d :: rest)[4 + k]?
      simp [putUint32LE, show 4 + k = k + 4 by omega, List.getElem?_cons_succ]

theorem setSessionID_only_header_witness :
    4 ≤ [9, 9, 9, 9, 5, 6].length ∧
    ∃ msg2, setSessionID [9, 9, 9, 9, 5, 6] 1 = .ok msg2 ∧
      msg2.length = [9, 9, 9, 9, 5, 6].length ∧
      msg2.drop 4 = [9, 9, 9, 9, 5, 6].drop 4 ∧
      ∀ k, msg2[4 + k]? = [9, 9, 9, 9, 5, 6][4 + k]? :=
  ⟨by decide, setSessionID_only_header [9, 9, 9, 9, 5, 6] 1 (by decide)⟩

/-- C10: the fixed endianness of the 4-byte header is little-endian: for
every uint32 id, `idToBytes` places the least-significant byte first
(`idToBytes 1 = [1, 0, 0, 0]`), and `getSessionID` inverts exactly this
little-endian layout. -/
theorem endianness_little_endian :
    idToBytes 1 = [1, 0, 0, 0] ∧
    (∀ id : Nat, idToBytes id =
      [id % 256, id / 256 % 256, id / 65536 % 256, id / 16777216 % 256]) ∧
    (∀ b0 b1 b2 b3 rest, getSessionID (b0 :: b1 :: b2 :: b3 :: rest) =
      .ok (b0 + 256 * b1 + 65536 * b2 + 16777216 * b3)) ∧
    (∀ id rest, getSessionID (idToBytes id ++ rest) =
      .ok (id % 4294967296)) := by
  refine ⟨rfl, fun id => rfl, fun b0 b1 b2 b3 rest => rfl, fun id rest => ?_⟩
  show GoResult.ok (uint32LE (id % 256) ((id / 256) % 256)
    ((id / 65536) % 256) ((id / 16777216) % 256)) = _
  rw [uint32LE_putUint32LE]

end GoNatty
